import Mathlib

/-!
Verification of the modelle view-controller library (src/modelle.js,
src/unnamed/part_001, src/formControl.js) against its natural-language
specification.  The JavaScript is shallowly embedded: DOM elements are
natural-number ids, JS objects iterated with for-in/Object.keys are
association lists in insertion order, JS exceptions are explicit error
values, and JS truthiness of optional values is modelled with Option
(none = absent/falsy).
-/

namespace Modelle

/-! ## Event dispatcher

Embedding of the inner `actualEventListener` closure built by
`Controller.addEventListeners` (src/unnamed/part_001 lines 764-799; the
variant in src/modelle.js lines 670-692 is identical except that it lacks
the empty-selector branch).  The closure iterates the selectors of one
event type in `Object.keys` (declaration) order; for each selector it
resolves a delegator target (`event.target.closest(selector)` for a
non-empty selector, the view element itself for the empty selector) and,
at the FIRST selector that resolves, invokes that selector's handler and
then `return`s from the dispatch.

`resolve` abstracts `event.target.closest`: for a fixed event target it
maps a selector to the nearest matching ancestor-or-self, if any.
-/

/-- `event.target.closest(s)` over an explicit ancestor chain (target
first, outermost ancestor last): the first element of the chain matching
the selector. -/
def closestIn (chain : List Nat) (matchesSel : Nat → String → Bool)
    (s : String) : Option Nat :=
  chain.find? (fun e => matchesSel e s)

/-- One dispatch pass of the delegated-event listener: scan the selectors
in declaration order, return the first selector that resolves to an
element together with that element (the handler that is invoked and its
delegator target), or `none` when no selector resolves.  The source
`return`s immediately after invoking the first matching handler. -/
def dispatch (selectors : List String) (resolve : String → Option Nat)
    (rootEl : Nat) : Option (String × Nat) :=
  match selectors with
  | [] => none
  | s :: rest =>
    match (if s = "" then some rootEl else resolve s) with
    | some e => some (s, e)
    | none => dispatch rest resolve rootEl

/-- The selectors whose handlers are invoked during one dispatch pass, in
invocation order. -/
def firedSelectors (selectors : List String) (resolve : String → Option Nat)
    (rootEl : Nat) : List String :=
  match dispatch selectors resolve rootEl with
  | some (s, _) => [s]
  | none => []

/-- Whether the dispatch pass ends with the native event's propagation
stopped: the invoked handler (if any) called `stopPropagation` through the
cloned event. -/
def dispatchStopsProp (selectors : List String) (resolve : String → Option Nat)
    (rootEl : Nat) (stops : String → Bool) : Bool :=
  match dispatch selectors resolve rootEl with
  | some (s, _) => stops s
  | none => false

/-! ## Native listener bookkeeping

Embedding of `Controller.addEventListeners` / `removeEventListeners`
state.  `native` is the platform's list of live native listeners on the
view element as `(eventType, listenerId)` pairs in registration order;
`stored` is the controller's `actualEventListeners` object as an
association list in insertion order (one entry per event type).
`addEventListener` appends; `removeEventListener` with a listener value
removes the matching registration, and with an undefined listener (the
callback parameter is nullable in the DOM) removes nothing.
-/

/-- The platform's list of live listeners after `removeEventListener
(name, l)`: the first matching registration is removed; an undefined
listener argument removes nothing. -/
def removeNative (native : List (String × Nat)) (name : String)
    (l : Option Nat) : List (String × Nat) :=
  match l with
  | none => native
  | some i =>
    match native with
    | [] => []
    | p :: rest =>
      if p = (name, i) then rest else p :: removeNative rest name (some i)

/-- JS object property lookup on an association list in insertion order. -/
def lookupA {β : Type} (m : List (String × β)) (a : String) : Option β :=
  match m with
  | [] => none
  | (k, v) :: rest => if k = a then some v else lookupA rest a

/-- Controller listener state: live native listeners and the
`actualEventListeners` object. -/
structure CState where
  native : List (String × Nat)
  stored : List (String × Nat)
deriving DecidableEq, Repr

/-- `for (x in a)` over an array `a` of length `n` enumerates the array's
own enumerable property names: the index strings "0" .. "n-1". -/
def forInKeys (n : Nat) : List String :=
  (List.range n).map (fun i => toString i)

/-- `Controller.removeEventListeners` as written in src/modelle.js lines
704-713: `for (let eventName in Object.keys(this.actualEventListeners))`
iterates the index strings of the keys array, so each
`removeEventListener` call receives an index string as the event type and
`this.actualEventListeners[indexString]` (undefined unless an event type
is literally named "0", "1", ...) as the listener. -/
def removeEventListeners_mjs (st : CState) : CState :=
  let native := (forInKeys st.stored.length).foldl
    (fun nat k => removeNative nat k (lookupA st.stored k)) st.native
  ⟨native, []⟩

/-- `Controller.removeEventListeners` as written in src/unnamed/part_001
lines 807-816: `for (let eventName of Object.keys(...))` iterates the
stored event types and removes each stored native listener. -/
def removeEventListeners_p1 (st : CState) : CState :=
  let native := st.stored.foldl
    (fun nat p => removeNative nat p.1 (lookupA st.stored p.1)) st.native
  ⟨native, []⟩

/-- The attachment loop shared by both versions of `addEventListeners`:
for each event type of the listener map (in `Object.keys` order) register
one fresh native listener and store it in `actualEventListeners`.  Fresh
listener closures are modelled by consecutive ids starting at `base`. -/
def attachLoop (names : List String) (base : Nat) (st : CState) : CState :=
  match names with
  | [] => st
  | n :: rest =>
    attachLoop rest (base + 1)
      ⟨st.native ++ [(n, base)], st.stored ++ [(n, base)]⟩

/-- `Controller.addEventListeners` (src/modelle.js lines 664-700): first
`removeEventListeners()`, then install one native listener per event
type. -/
def addEventListeners_mjs (names : List String) (base : Nat)
    (st : CState) : CState :=
  attachLoop names base (removeEventListeners_mjs st)

/-- `Controller.addEventListeners` (src/unnamed/part_001 lines 757-803):
first `removeEventListeners()`, then install one native listener per
event type. -/
def addEventListeners_p1 (names : List String) (base : Nat)
    (st : CState) : CState :=
  attachLoop names base (removeEventListeners_p1 st)

/-- Number of live native listeners for one event type. -/
def countListeners (st : CState) (name : String) : Nat :=
  (st.native.filter (fun p => p.1 = name)).length

/-! ## Form control: normalize (src/formControl.js lines 114-150)

A raw model-form-map entry before normalization.  Optional JS values are
`Option` with `none` standing for an absent or falsy value (the source
tests each field with `if (!map.field)`).  The caller-supplied reader and
transformer functions are opaque, with the two library defaults
(`value => value` and `el => el.value`) as distinguished constructors. -/

/-- A transformValue function: the default identity or a user function. -/
inductive TVal where
  | identity
  | custom (k : Nat)
deriving DecidableEq, Repr

/-- A formValueReader function: the default value-property reader or a
user function. -/
inductive RVal where
  | valueProp
  | custom (k : Nat)
deriving DecidableEq, Repr

/-- One entry of a raw model-form map. -/
structure FCField where
  el : Option Nat
  transformValue : Option TVal
  formValueReader : Option RVal
  errorClassEl : Option Nat
  errorClass : Option String
deriving DecidableEq, Repr

/-- The body of `normalize`'s per-attribute loop: fill each falsy field
with its default — identity transformer, value-property reader, the
field's own element as error-class element, and the view-level error
class. -/
def normalizeField (defaultErrorClass : Option String) (f : FCField) :
    FCField :=
  { f with
    transformValue := some (f.transformValue.getD TVal.identity)
    formValueReader := some (f.formValueReader.getD RVal.valueProp)
    errorClassEl :=
      match f.errorClassEl with
      | some e => some e
      | none => f.el
    errorClass :=
      match f.errorClass with
      | some c => some c
      | none => defaultErrorClass }

/-- `normalize(el, modelFormMap)`: apply the defaulting pass to every own
attribute of the map (the in-place mutation is modelled by returning the
updated association list; `defaultErrorClass` is `el.props.errorClass`). -/
def normalize (defaultErrorClass : Option String)
    (m : List (String × FCField)) : List (String × FCField) :=
  m.map (fun p => (p.1, normalizeField defaultErrorClass p.2))

/-! ## Form control: DOM model and validate (src/formControl.js 153-221)

The DOM is an association list from element id to element state
(`classList`, modelled as a duplicate-free token list, and `innerHTML`).
The normalized mapping entries used by `validate` carry concrete `el`,
`errorClass` and `errorClassEl` (normalization has filled them) plus the
optional `errorMessageEl` and the `errorMessages` table, whose values in
JS may be strings (as the README documents) or functions (as the code
calls them). -/

/-- Element state: class list and innerHTML. -/
structure EState where
  classes : List String
  innerHTML : String
deriving DecidableEq, Repr

/-- The DOM as a map from element id to element state. -/
abbrev Dom : Type := List (Nat × EState)

/-- Element state lookup; an element never touched has no classes and
empty innerHTML. -/
def getE (d : Dom) (i : Nat) : EState :=
  match d with
  | [] => ⟨[], ""⟩
  | (j, s) :: rest => if j = i then s else getE rest i

/-- Element state update. -/
def setE (d : Dom) (i : Nat) (s : EState) : Dom :=
  match d with
  | [] => [(i, s)]
  | (j, t) :: rest => if j = i then (j, s) :: rest else (j, t) :: setE rest i s

/-- `element.classList.add(c)`: appends the token unless present. -/
def addClassD (d : Dom) (i : Nat) (c : String) : Dom :=
  let s := getE d i
  if c ∈ s.classes then d else setE d i ⟨s.classes ++ [c], s.innerHTML⟩

/-- `element.classList.remove(c)`: drops the token. -/
def removeClassD (d : Dom) (i : Nat) (c : String) : Dom :=
  let s := getE d i
  setE d i ⟨s.classes.filter (fun x => x ≠ c), s.innerHTML⟩

/-- `element.innerHTML = h`. -/
def setHTML (d : Dom) (i : Nat) (h : String) : Dom :=
  let s := getE d i
  setE d i ⟨s.classes, h⟩

/-- A value of the `errorMessages` table: a plain string (display text,
as the README documents) or a function (modelled by an opaque effect
id). -/
inductive MsgEntry where
  | str (s : String)
  | fn (k : Nat)
deriving DecidableEq, Repr

/-- JS truthiness of a table value (`mapping.errorMessages[error.code]`
is tested for truthiness before use): the empty string is falsy,
functions are truthy. -/
def entryTruthy : MsgEntry → Bool
  | MsgEntry.str s => !s.isEmpty
  | MsgEntry.fn _ => true

/-- The string JS assigns when the table value is written to
`innerHTML` (a function coerces to its source text, modelled opaquely). -/
def entryHTML : MsgEntry → String
  | MsgEntry.str s => s
  | MsgEntry.fn k => "[function " ++ toString k ++ "]"

/-- One normalized model-form-map entry as consumed by `validate`. -/
structure NField where
  el : Nat
  errorClassEl : Nat
  errorClass : String
  errorMessageEl : Option Nat
  errorMessages : List (String × MsgEntry)
deriving DecidableEq, Repr

/-- One attribute's entry of a ValidationError's `errors` object:
optional `message` and `code` (none = absent/falsy). -/
structure ErrInfo where
  message : Option String
  code : Option String
deriving DecidableEq, Repr

/-- The error-clearing loop at the top of `validate` (lines 159-172): for
each mapped attribute, ONLY IF the mapping has an `errorMessageEl`, clear
its innerHTML, remove the error class from the field element, and hide
the message element.  A mapping without `errorMessageEl` is skipped
entirely. -/
def clearPass (m : List (String × NField)) (dom : Dom) : Dom :=
  match m with
  | [] => dom
  | (_, f) :: rest =>
    let dom1 :=
      match f.errorMessageEl with
      | some msgEl =>
        addClassD (removeClassD (setHTML dom msgEl "") f.el f.errorClass)
          msgEl "hidden"
      | none => dom
    clearPass rest dom1

/-- One iteration of the ValidationError display loop (lines 184-215) for
a reported attribute.  Returns `none` when the iteration throws a
TypeError: either the attribute is absent from the map (so
`mapping.errorMessageEl` dereferences undefined, line 192) or, in the
no-`errorMessageEl` branch, the truthy table value is a plain string and
line 207 calls it as a function.  Both throw points precede any DOM
mutation of the iteration, so the DOM at the throw is the DOM at entry.
On success returns the updated DOM and the accumulated invoked-callback
ids. -/
def displayOne (m : List (String × NField)) (dom : Dom) (effs : List Nat)
    (attr : String) (e : ErrInfo) : Option (Dom × List Nat) :=
  match lookupA m attr with
  | none => none
  | some f =>
    match f.errorMessageEl with
    | some msgEl =>
      let d1 :=
        match e.message with
        | some msg => setHTML dom msgEl msg
        | none =>
          match e.code with
          | some c =>
            match lookupA f.errorMessages c with
            | some ent =>
              if entryTruthy ent then setHTML dom msgEl (entryHTML ent)
              else dom
            | none => dom
          | none => dom
      some (removeClassD (addClassD d1 f.el f.errorClass) msgEl "hidden", effs)
    | none =>
      match e.code with
      | some c =>
        match lookupA f.errorMessages c with
        | some ent =>
          if entryTruthy ent then
            match ent with
            | MsgEntry.str _ => none
            | MsgEntry.fn k =>
              some (addClassD dom f.el f.errorClass, effs ++ [k])
          else some (addClassD dom f.el f.errorClass, effs)
        | none => some (addClassD dom f.el f.errorClass, effs)
      | none => some (addClassD dom f.el f.errorClass, effs)

/-- The display loop over all reported attributes, in the insertion order
of the `errors` object; a TypeError aborts the loop, keeping the
mutations already made (third component `true` = TypeError thrown). -/
def displayLoop (m : List (String × NField)) (es : List (String × ErrInfo))
    (dom : Dom) (effs : List Nat) : Dom × List Nat × Bool :=
  match es with
  | [] => (dom, effs, false)
  | (a, e) :: rest =>
    match displayOne m dom effs a e with
    | some (d1, f1) => displayLoop m rest d1 f1
    | none => (dom, effs, true)

/-- Outcome of `props.model.validate()`: success, a thrown
ValidationError carrying its `errors` object, or some other thrown
error. -/
inductive MVRes where
  | ok
  | vErr (es : List (String × ErrInfo))
  | otherErr (t : Nat)
deriving DecidableEq, Repr

/-- Outcome of the `validate` routine itself. -/
inductive VOut where
  | ok
  | vErr (es : List (String × ErrInfo))
  | typeErr
  | otherErr (t : Nat)
deriving DecidableEq, Repr

/-- Result of running `validate`: final DOM, invoked error callbacks, and
outcome. -/
structure VResult where
  dom : Dom
  effects : List Nat
  out : VOut
deriving DecidableEq, Repr

/-- The `validate` routine (lines 153-221): clear previously displayed
errors, read the form into the model (no DOM effect; the model writes are
not observed by the claims), call `model.validate()`, and on a
ValidationError run the display loop and re-raise it (`throw e`, line
219) — unless an iteration throws a TypeError, which replaces the
ValidationError.  A non-ValidationError from `model.validate()` is
re-thrown without display (the catch body is guarded by
`instanceof ValidationError`). -/
def validateRun (m : List (String × NField)) (dom : Dom) (mv : MVRes) :
    VResult :=
  let d0 := clearPass m dom
  match mv with
  | MVRes.ok => ⟨d0, [], VOut.ok⟩
  | MVRes.otherErr t => ⟨d0, [], VOut.otherErr t⟩
  | MVRes.vErr es =>
    match displayLoop m es d0 [] with
    | (d1, f1, false) => ⟨d1, f1, VOut.vErr es⟩
    | (d1, f1, true) => ⟨d1, f1, VOut.typeErr⟩

/-! ## Form control: submit (src/formControl.js lines 240-277)

The submit click handler is embedded as a step machine over the outcomes
of its constituent calls.  `showLoadingSpinner`, `getModelFormMap`,
`normalize` and `disableAllInputs` run BEFORE the try/finally; the
try body runs `validate` (swallowing a ValidationError, forwarding any
other error to `onSubmitError` and returning), then `saveModel`
(forwarding a failure to `onSubmitError` and returning), then
`onSubmitted`; the finally block runs `removeLoadingSpinner` then
`enableAllInputs`. -/

/-- An error value thrown by a step: a ValidationError or anything
else. -/
inductive Ev where
  | validation (t : Nat)
  | other (t : Nat)
deriving DecidableEq, Repr

/-- The observable calls made by one submit click, in order. -/
inductive Action where
  | showSpinner
  | getMap
  | normalizeMap
  | disableInputs
  | validateCall
  | saveCall
  | onSubmittedCall
  | onSubmitErrorCall
  | removeSpinner
  | enableInputs
deriving DecidableEq, Repr

/-- Outcomes of each call a submit click makes (`none` = the call returns
normally, `some e` = it throws `e`).  `validateRes` is the outcome of
`props.validate(el)`, `submitErrRes` the outcome of the `onSubmitError`
callback itself, and so on. -/
structure SEnv where
  spinnerThrows : Option Ev
  getMapThrows : Option Ev
  normalizeThrows : Option Ev
  disableThrows : Option Ev
  validateRes : Option Ev
  saveRes : Option Ev
  submittedRes : Option Ev
  submitErrRes : Option Ev
  removeSpinnerRes : Option Ev
  enableRes : Option Ev
deriving DecidableEq, Repr

/-- Occurrence count of an action in a trace. -/
def countAct (l : List Action) (a : Action) : Nat :=
  match l with
  | [] => 0
  | x :: r => (if x = a then 1 else 0) + countAct r a

/-- The `submit` handler: returns the trace of calls made and the error
escaping the handler, if any.  An error thrown before the try/finally
escapes at once; inside, the finally block always runs after the try
body, an error thrown by `removeLoadingSpinner` skips `enableAllInputs`,
and an error from the finally block replaces the body's. -/
def submit (env : SEnv) : List Action × Option Ev :=
  match env.spinnerThrows with
  | some e => ([Action.showSpinner], some e)
  | none =>
  match env.getMapThrows with
  | some e => ([Action.showSpinner, Action.getMap], some e)
  | none =>
  match env.normalizeThrows with
  | some e => ([Action.showSpinner, Action.getMap, Action.normalizeMap], some e)
  | none =>
  match env.disableThrows with
  | some e =>
    ([Action.showSpinner, Action.getMap, Action.normalizeMap,
      Action.disableInputs], some e)
  | none =>
    let body : List Action × Option Ev :=
      match env.validateRes with
      | none =>
        match env.saveRes with
        | none =>
          ([Action.validateCall, Action.saveCall, Action.onSubmittedCall],
            env.submittedRes)
        | some _ =>
          ([Action.validateCall, Action.saveCall, Action.onSubmitErrorCall],
            env.submitErrRes)
      | some (Ev.validation _) => ([Action.validateCall], none)
      | some (Ev.other _) =>
        ([Action.validateCall, Action.onSubmitErrorCall], env.submitErrRes)
    let fin : List Action × Option Ev :=
      match env.removeSpinnerRes with
      | some e => ([Action.removeSpinner], some e)
      | none => ([Action.removeSpinner, Action.enableInputs], env.enableRes)
    ([Action.showSpinner, Action.getMap, Action.normalizeMap,
      Action.disableInputs] ++ body.1 ++ fin.1,
      match fin.2 with
      | some e => some e
      | none => body.2)

theorem dispatch_fired (selectors : List String) (resolve : String → Option Nat)
    (rootEl : Nat) (s : String) (e : Nat)
    (h : dispatch selectors resolve rootEl = some (s, e)) :
    firedSelectors selectors resolve rootEl = [s] := by
  unfold firedSelectors
  rw [h]

theorem dispatch_first_match (selectors : List String)
    (resolve : String → Option Nat) (rootEl : Nat) (s : String) (e : Nat)
    (h : dispatch selectors resolve rootEl = some (s, e)) :
    ∃ l1 l2, selectors = l1 ++ s :: l2 ∧
      (∀ s' ∈ l1, (if s' = "" then some rootEl else resolve s') = none) ∧
      (if s = "" then some rootEl else resolve s) = some e := by
  induction selectors with
  | nil => simp [dispatch] at h
  | cons a rest ih =>
    unfold dispatch at h
    cases hr : (if a = "" then some rootEl else resolve a) with
    | some e0 =>
      rw [hr] at h
      simp at h
      refine ⟨[], rest, ?_, ?_, ?_⟩
      · simp [h.1]
      · intro s' hs'
        simp at hs'
      · rw [h.1] at hr
        rw [hr, h.2]
    | none =>
      rw [hr] at h
      simp at h
      obtain ⟨l1, l2, hsel, hnone, hres⟩ := ih h
      refine ⟨a :: l1, l2, ?_, ?_, hres⟩
      · simp [hsel]
      · intro s' hs'
        cases hs' with
        | head => exact hr
        | tail _ htl => exact hnone s' htl

theorem normalizeField_idem (d : Option String) (f : FCField) :
    normalizeField d (normalizeField d f) = normalizeField d f := by
  obtain ⟨el, tv, fvr, ecl, ec⟩ := f
  cases d <;> cases el <;> cases tv <;> cases fvr <;> cases ecl <;>
    cases ec <;> rfl

/-- C1: For every dispatched native event whose target lies under two
registered delegated selectors, one matching an inner element and one
matching an outer ancestor (e.g. '.a .b' inside '.a'), the dispatcher
invokes the inner selector's handler first and then also invokes the
outer selector's handler in the same dispatch pass, unless the first
handler stops propagation.  REFUTED: on the spec's own scenario
(selectors '.a' then '.a .b', target inside .b inside .a, both selectors
resolving) exactly one handler fires — that of the first selector in
declaration order ('.a', the OUTER one) — and the inner selector's
handler does not fire at all. -/
theorem c1_counterexample :
    firedSelectors [".a", ".a .b"]
        (fun s => if s = ".a" then some 3
          else if s = ".a .b" then some 2 else none) 0
      = [".a"] ∧
    ".a .b" ∉ firedSelectors [".a", ".a .b"]
        (fun s => if s = ".a" then some 3
          else if s = ".a .b" then some 2 else none) 0 ∧
    (firedSelectors [".a", ".a .b"]
        (fun s => if s = ".a" then some 3
          else if s = ".a .b" then some 2 else none) 0).length = 1 := by
  exact ⟨by decide, by decide, by decide⟩

/-- C1 (amended): exactly one handler fires per dispatch pass — the
handler of the first selector in declaration (`Object.keys`) order that
resolves to an element (`closest` for a non-empty selector, the view root
for the empty selector); handlers of every other registered selector,
inner or outer, do not fire in that pass. -/
theorem c1_first_match_only (selectors : List String)
    (resolve : String → Option Nat) (rootEl : Nat) (s : String) (e : Nat)
    (h : dispatch selectors resolve rootEl = some (s, e)) :
    firedSelectors selectors resolve rootEl = [s] ∧
    ∃ l1 l2, selectors = l1 ++ s :: l2 ∧
      (∀ s' ∈ l1, (if s' = "" then some rootEl else resolve s') = none) ∧
      (if s = "" then some rootEl else resolve s) = some e :=
  ⟨dispatch_fired selectors resolve rootEl s e h,
    dispatch_first_match selectors resolve rootEl s e h⟩

/-- C1 witness: the amended theorem applied to the '.a' / '.a .b'
scenario. -/
theorem c1_first_match_only_witness :
    dispatch [".a", ".a .b"]
        (fun s => if s = ".a" then some 3
          else if s = ".a .b" then some 2 else none) 0
      = some (".a", 3) ∧
    (firedSelectors [".a", ".a .b"]
        (fun s => if s = ".a" then some 3
          else if s = ".a .b" then some 2 else none) 0
      = [".a"] ∧
    ∃ l1 l2, [".a", ".a .b"] = l1 ++ ".a" :: l2 ∧
      (∀ s' ∈ l1, (if s' = "" then some 0
        else if s' = ".a" then some 3
          else if s' = ".a .b" then some 2 else none) = none) ∧
      (if ".a" = "" then some 0
        else if ".a" = ".a" then some 3
          else if ".a" = ".a .b" then some 2 else none) = some 3) :=
  ⟨by decide,
    c1_first_match_only [".a", ".a .b"]
      (fun s => if s = ".a" then some 3
        else if s = ".a .b" then some 2 else none) 0 ".a" 3 (by decide)⟩

/-- C2: For every submit-button click, regardless of outcome (success,
validation failure, save failure, or unexpected error thrown by any step,
including computing or normalizing the model-form map and disabling
inputs), the submission handler re-enables all mapped inputs and the
submit button and removes the loading indicator, exactly once per click.
REFUTED: `showLoadingSpinner`, `getModelFormMap`, `normalize` and
`disableAllInputs` run before the try/finally block, so when
`getModelFormMap` throws, the handler ends with neither
`removeLoadingSpinner` nor `enableAllInputs` having run. -/
theorem c2_counterexample :
    submit ⟨none, some (Ev.other 7), none, none, none, none, none, none,
        none, none⟩
      = ([Action.showSpinner, Action.getMap], some (Ev.other 7)) ∧
    Action.removeSpinner ∉
      (submit ⟨none, some (Ev.other 7), none, none, none, none, none, none,
        none, none⟩).1 ∧
    Action.enableInputs ∉
      (submit ⟨none, some (Ev.other 7), none, none, none, none, none, none,
        none, none⟩).1 := by
  exact ⟨by decide, by decide, by decide⟩

/-- C2 (amended): whenever the four steps before the try/finally block
(show spinner, compute the model-form map, normalize it, disable inputs)
return without throwing and `removeLoadingSpinner` itself does not throw,
the handler removes the loading indicator and invokes the re-enable-all-
inputs step exactly once per click, for every outcome of validate, save
and the callbacks; a throw in a pre-try step skips both cleanups, and a
throw in `removeLoadingSpinner` would skip the re-enable step. -/
theorem c2_cleanup_after_presteps (env : SEnv)
    (h1 : env.spinnerThrows = none) (h2 : env.getMapThrows = none)
    (h3 : env.normalizeThrows = none) (h4 : env.disableThrows = none)
    (h5 : env.removeSpinnerRes = none) :
    countAct (submit env).1 Action.removeSpinner = 1 ∧
    countAct (submit env).1 Action.enableInputs = 1 := by
  cases hv : env.validateRes with
  | none =>
    cases hs : env.saveRes with
    | none => simp [submit, h1, h2, h3, h4, h5, hv, hs, countAct]
    | some e => simp [submit, h1, h2, h3, h4, h5, hv, hs, countAct]
  | some e =>
    cases e <;> simp [submit, h1, h2, h3, h4, h5, hv, countAct]

/-- C2 witness: the amended theorem applied to the all-successful
click. -/
theorem c2_cleanup_after_presteps_witness :
    countAct (submit ⟨none, none, none, none, none, none, none, none, none,
        none⟩).1 Action.removeSpinner = 1 ∧
    countAct (submit ⟨none, none, none, none, none, none, none, none, none,
        none⟩).1 Action.enableInputs = 1 :=
  c2_cleanup_after_presteps
    ⟨none, none, none, none, none, none, none, none, none, none⟩
    rfl rfl rfl rfl rfl

/-- C3: For every submission in which the validate step throws a
Validation Error, the save callback is never invoked and the generic
error callback `onSubmitError` is never invoked for that error; the
validation error is re-raised by the `validate` routine after
field-error display and then handled terminally inside the submission
handler (no error escapes the click handler). -/
theorem c3_validation_error_terminal (env : SEnv) (t : Nat)
    (h1 : env.spinnerThrows = none) (h2 : env.getMapThrows = none)
    (h3 : env.normalizeThrows = none) (h4 : env.disableThrows = none)
    (hv : env.validateRes = some (Ev.validation t))
    (h5 : env.removeSpinnerRes = none) (h6 : env.enableRes = none)
    (m : List (String × NField)) (dom : Dom) (es : List (String × ErrInfo))
    (hdisp : (displayLoop m es (clearPass m dom) []).2.2 = false) :
    Action.saveCall ∉ (submit env).1 ∧
    Action.onSubmitErrorCall ∉ (submit env).1 ∧
    (submit env).2 = none ∧
    (validateRun m dom (MVRes.vErr es)).out = VOut.vErr es := by
  refine ⟨?_, ?_, ?_, ?_⟩
  · simp [submit, h1, h2, h3, h4, h5, hv]
  · simp [submit, h1, h2, h3, h4, h5, hv]
  · simp [submit, h1, h2, h3, h4, h5, h6, hv]
  · unfold validateRun
    rcases hdl : displayLoop m es (clearPass m dom) [] with ⟨d1, f1, b⟩
    rw [hdl] at hdisp
    simp at hdisp
    subst hdisp
    simp [hdl]

/-- C3 witness: a submission whose validate step throws a
ValidationError over a one-field normalized map. -/
theorem c3_validation_error_terminal_witness :
    (displayLoop [("name", ⟨1, 1, "erroneousInput", some 5, []⟩)]
        [("name", ⟨some "bad name", none⟩)]
        (clearPass [("name", ⟨1, 1, "erroneousInput", some 5, []⟩)]
          [(1, ⟨[], ""⟩), (5, ⟨[], ""⟩)]) []).2.2 = false ∧
    (Action.saveCall ∉
      (submit ⟨none, none, none, none, some (Ev.validation 0), none, none,
        none, none, none⟩).1 ∧
    Action.onSubmitErrorCall ∉
      (submit ⟨none, none, none, none, some (Ev.validation 0), none, none,
        none, none, none⟩).1 ∧
    (submit ⟨none, none, none, none, some (Ev.validation 0), none, none,
        none, none, none⟩).2 = none ∧
    (validateRun [("name", ⟨1, 1, "erroneousInput", some 5, []⟩)]
        [(1, ⟨[], ""⟩), (5, ⟨[], ""⟩)]
        (MVRes.vErr [("name", ⟨some "bad name", none⟩)])).out
      = VOut.vErr [("name", ⟨some "bad name", none⟩)]) :=
  ⟨by decide,
    c3_validation_error_terminal
      ⟨none, none, none, none, some (Ev.validation 0), none, none, none,
        none, none⟩ 0 rfl rfl rfl rfl rfl rfl rfl
      [("name", ⟨1, 1, "erroneousInput", some 5, []⟩)]
      [(1, ⟨[], ""⟩), (5, ⟨[], ""⟩)]
      [("name", ⟨some "bad name", none⟩)] (by decide)⟩

/-- C4: For every Validation Error whose errors mapping contains an
attribute key absent from the current normalized Model-Form Map, the
field-error display step does nothing for that key (silent no-op) and
does not raise any error other than re-raising the Validation Error
itself.  REFUTED: `modelFormMap[erroneousAttribute]` is undefined for
such a key and line 192 (`mapping.errorMessageEl`) throws a TypeError, so
the display step aborts and the TypeError — not the ValidationError — is
what `validate` raises. -/
theorem c4_counterexample :
    (validateRun [("name", ⟨1, 1, "erroneousInput", some 5, []⟩)]
        [(1, ⟨[], ""⟩), (5, ⟨[], ""⟩)]
        (MVRes.vErr [("username", ⟨none, some "required"⟩)])).out
      = VOut.typeErr ∧
    (validateRun [("name", ⟨1, 1, "erroneousInput", some 5, []⟩)]
        [(1, ⟨[], ""⟩), (5, ⟨[], ""⟩)]
        (MVRes.vErr [("username", ⟨none, some "required"⟩)])).out
      ≠ VOut.vErr [("username", ⟨none, some "required"⟩)] := by
  exact ⟨by decide, by decide⟩

/-- C4 (amended): when the Validation Error's first reported attribute is
absent from the normalized Model-Form Map, dereferencing the missing
mapping throws a TypeError: no field is updated for that key, no error
callback of the map runs, and `validate` propagates the TypeError
instead of re-raising the Validation Error. -/
theorem c4_missing_key_type_error (m : List (String × NField)) (dom : Dom)
    (attr : String) (e : ErrInfo) (rest : List (String × ErrInfo))
    (h : lookupA m attr = none) :
    validateRun m dom (MVRes.vErr ((attr, e) :: rest))
      = ⟨clearPass m dom, [], VOut.typeErr⟩ := by
  simp [validateRun, displayLoop, displayOne, h]

/-- C4 witness: the amended theorem applied to a one-field map and an
unknown reported attribute. -/
theorem c4_missing_key_type_error_witness :
    lookupA [("name", (⟨1, 1, "erroneousInput", some 5, []⟩ : NField))]
        "username" = none ∧
    validateRun [("name", ⟨1, 1, "erroneousInput", some 5, []⟩)]
        [(1, ⟨[], ""⟩), (5, ⟨[], ""⟩)]
        (MVRes.vErr [("username", ⟨none, some "required"⟩)])
      = ⟨clearPass [("name", ⟨1, 1, "erroneousInput", some 5, []⟩)]
          [(1, ⟨[], ""⟩), (5, ⟨[], ""⟩)], [], VOut.typeErr⟩ :=
  ⟨by decide,
    c4_missing_key_type_error
      [("name", ⟨1, 1, "erroneousInput", some 5, []⟩)]
      [(1, ⟨[], ""⟩), (5, ⟨[], ""⟩)] "username"
      ⟨none, some "required"⟩ [] (by decide)⟩

/-- C5: At the start of every read-and-validate pass, for every field in
the normalized Model-Form Map — unconditionally, regardless of whether
the field has an error-message element — any previously added error class
is removed and any error-message element is cleared and hidden.  The
source gates the whole clearing body on `map.errorMessageEl` (line 166),
so a field without an error-message element keeps its previously added
error class — even though the display path adds that class to exactly
such fields unconditionally (line 210): evaluated here on a one-field map
whose field carries the error class from a previous attempt and has no
error-message element. -/
theorem c5_clear_pass_skips_unmessaged_field :
    clearPass [("name", ⟨1, 1, "erroneousInput", none, []⟩)]
        [(1, ⟨["erroneousInput"], ""⟩)]
      = [(1, ⟨["erroneousInput"], ""⟩)] ∧
    "erroneousInput" ∈
      (getE (clearPass [("name", ⟨1, 1, "erroneousInput", none, []⟩)]
        [(1, ⟨["erroneousInput"], ""⟩)]) 1).classes ∧
    (validateRun [("name", ⟨1, 1, "erroneousInput", none, []⟩)]
        [(1, ⟨[], ""⟩)]
        (MVRes.vErr [("name", ⟨none, none⟩)])).dom
      = [(1, ⟨["erroneousInput"], ""⟩)] := by
  exact ⟨by decide, by decide, by decide⟩

/-- C6: If any delegated handler calls stopPropagation during a dispatch
pass, then no handler for a selector not yet processed in that pass,
including the root (empty-selector) handler, fires for that dispatch.
This holds because the dispatcher returns immediately after invoking the
first matching handler: no other selector's handler fires in the pass at
all. -/
theorem c6_stop_propagation_no_later_handlers (selectors : List String)
    (resolve : String → Option Nat) (rootEl : Nat) (stops : String → Bool)
    (s : String) (e : Nat)
    (hfire : dispatch selectors resolve rootEl = some (s, e))
    (hstop : stops s = true) :
    dispatchStopsProp selectors resolve rootEl stops = true ∧
    ∀ s', s' ≠ s → s' ∉ firedSelectors selectors resolve rootEl := by
  constructor
  · unfold dispatchStopsProp
    rw [hfire]
    exact hstop
  · intro s' hne hmem
    rw [dispatch_fired selectors resolve rootEl s e hfire] at hmem
    simp at hmem
    exact hne hmem

/-- C6 witness: selectors '.a .b', '.a' and the root registered; the
'.a .b' handler fires and stops propagation; neither '.a' nor the root
handler fires. -/
theorem c6_stop_propagation_no_later_handlers_witness :
    dispatch [".a .b", ".a", ""]
        (fun s => if s = ".a .b" then some 2
          else if s = ".a" then some 3 else none) 0
      = some (".a .b", 2) ∧
    (fun s => s == ".a .b") ".a .b" = true ∧
    (dispatchStopsProp [".a .b", ".a", ""]
        (fun s => if s = ".a .b" then some 2
          else if s = ".a" then some 3 else none) 0
        (fun s => s == ".a .b") = true ∧
      ∀ s', s' ≠ ".a .b" →
        s' ∉ firedSelectors [".a .b", ".a", ""]
          (fun s => if s = ".a .b" then some 2
            else if s = ".a" then some 3 else none) 0) :=
  ⟨by decide, by decide,
    c6_stop_propagation_no_later_handlers [".a .b", ".a", ""]
      (fun s => if s = ".a .b" then some 2
        else if s = ".a" then some 3 else none) 0
      (fun s => s == ".a .b") ".a .b" 2 (by decide) (by decide)⟩

/-- C7: For every view and every event type, at most one native listener
installed by the library is live at any time; attaching first removes all
previously installed native listeners, and removing with none attached is
a no-op.  The src/modelle.js `removeEventListeners` violates this: its
`for (let eventName in Object.keys(...))` iterates the index strings of
the keys array, so `removeEventListener` receives "0" as the event type
and an undefined listener, and removes nothing — two consecutive
`addEventListeners` calls for a click map leave TWO live click listeners.
The src/unnamed/part_001 version (`for ... of`) leaves exactly one, and
both versions are no-ops on a detached state. -/
theorem c7_attach_twice_evaluation :
    countListeners
        (addEventListeners_mjs ["click"] 1
          (addEventListeners_mjs ["click"] 0 ⟨[], []⟩)) "click" = 2 ∧
    countListeners
        (addEventListeners_p1 ["click"] 1
          (addEventListeners_p1 ["click"] 0 ⟨[], []⟩)) "click" = 1 ∧
    removeEventListeners_mjs ⟨[], []⟩ = ⟨[], []⟩ ∧
    removeEventListeners_p1 ⟨[], []⟩ = ⟨[], []⟩ := by
  exact ⟨by decide, by decide, by decide, by decide⟩

/-- C8: `normalize` is idempotent: applying it twice yields, field by
field, the same map as applying it once — the second application never
changes a field already set by the first. -/
theorem c8_normalize_idempotent (d : Option String)
    (m : List (String × FCField)) :
    normalize d (normalize d m) = normalize d m := by
  induction m with
  | nil => rfl
  | cons p rest ih =>
    calc normalize d (normalize d (p :: rest))
        = (p.1, normalizeField d (normalizeField d p.2)) ::
            normalize d (normalize d rest) := rfl
      _ = (p.1, normalizeField d p.2) :: normalize d rest := by
          rw [normalizeField_idem, ih]
      _ = normalize d (p :: rest) := rfl

/-- C9: When a Validation Error reports an attribute present in the
normalized Model-Form Map, the error CSS class is added to that field's
error-class target element (`errorClassEl`, defaulting to the field
element), and the error-message element, if present, is unhidden.
REFUTED for a supplied `errorClassEl` distinct from the field element:
line 210 adds the class to `mapping.el`, never consulting
`mapping.errorClassEl` (which the README documents as "element on which
the errorClass is to be added") — evaluated here on a field with
`el = 1`, `errorClassEl = 2`. -/
theorem c9_error_class_ignores_errorClassEl :
    (validateRun [("name", ⟨1, 2, "err", none, []⟩)]
        [(1, ⟨[], ""⟩), (2, ⟨[], ""⟩)]
        (MVRes.vErr [("name", ⟨none, none⟩)])).dom
      = [(1, ⟨["err"], ""⟩), (2, ⟨[], ""⟩)] ∧
    "err" ∈ (getE (validateRun [("name", ⟨1, 2, "err", none, []⟩)]
        [(1, ⟨[], ""⟩), (2, ⟨[], ""⟩)]
        (MVRes.vErr [("name", ⟨none, none⟩)])).dom 1).classes ∧
    "err" ∉ (getE (validateRun [("name", ⟨1, 2, "err", none, []⟩)]
        [(1, ⟨[], ""⟩), (2, ⟨[], ""⟩)]
        (MVRes.vErr [("name", ⟨none, none⟩)])).dom 2).classes := by
  exact ⟨by decide, by decide, by decide⟩

/-- C10: For every reported validation-error attribute whose field
mapping has no `errorMessageEl` but whose `errorMessages` table contains
a (truthy) entry for the reported error code, `validate` invokes that
entry as a zero-argument function — a function entry's effect runs (and
the ValidationError display continues), while a plain string stored there
is called as a function and throws a TypeError that aborts the display. -/
theorem c10_error_messages_called_as_function
    (m : List (String × NField)) (dom : Dom) (effs : List Nat)
    (attr : String) (f : NField) (c : String) (ent : MsgEntry)
    (hm : lookupA m attr = some f) (hmsg : f.errorMessageEl = none)
    (hent : lookupA f.errorMessages c = some ent)
    (ht : entryTruthy ent = true) :
    (∀ s, ent = MsgEntry.str s →
      displayOne m dom effs attr ⟨none, some c⟩ = none ∧
      (validateRun m dom (MVRes.vErr [(attr, ⟨none, some c⟩)])).out
        = VOut.typeErr) ∧
    (∀ k, ent = MsgEntry.fn k →
      displayOne m dom effs attr ⟨none, some c⟩
        = some (addClassD dom f.el f.errorClass, effs ++ [k])) := by
  constructor
  · rintro s rfl
    constructor
    · simp [displayOne, hm, hmsg, hent, ht]
    · simp [validateRun, displayLoop, displayOne, hm, hmsg, hent, ht]
  · rintro k rfl
    simp [displayOne, hm, hmsg, hent, ht]

/-- C10 witness: a map whose single field stores the plain string
"Name is required" under code "required" and has no error-message
element: the display call for that attribute throws. -/
theorem c10_error_messages_called_as_function_witness :
    lookupA [("name", (⟨1, 1, "err", none,
        [("required", MsgEntry.str "Name is required")]⟩ : NField))] "name"
      = some ⟨1, 1, "err", none,
        [("required", MsgEntry.str "Name is required")]⟩ ∧
    (displayOne [("name", ⟨1, 1, "err", none,
        [("required", MsgEntry.str "Name is required")]⟩)]
        [(1, ⟨[], ""⟩)] [] "name" ⟨none, some "required"⟩ = none ∧
      (validateRun [("name", ⟨1, 1, "err", none,
        [("required", MsgEntry.str "Name is required")]⟩)]
        [(1, ⟨[], ""⟩)]
        (MVRes.vErr [("name", ⟨none, some "required"⟩)])).out
        = VOut.typeErr) :=
  ⟨by decide,
    (c10_error_messages_called_as_function
      [("name", ⟨1, 1, "err", none,
        [("required", MsgEntry.str "Name is required")]⟩)]
      [(1, ⟨[], ""⟩)] [] "name"
      ⟨1, 1, "err", none, [("required", MsgEntry.str "Name is required")]⟩
      "required" (MsgEntry.str "Name is required")
      (by decide) (by decide) (by decide) (by decide)).1
      "Name is required" rfl⟩

end Modelle
